import Mathlib

/-!
Verification development for the component definition resolution core of the
engine (packages/@lwc/engine/src/framework/def.ts).

The embedding is a shallow one: the prototype-chain world that def.ts walks is
represented as a finite graph of constructor records (`World`), and the
stateful parts (the `CtorToDefMap` WeakMap cache, the `defineProperties` and
`freeze` prototype mutations, and a call counter for the decorator-metadata
lookup) are threaded explicitly through a state record (`St`).  Recursion over
the prototype chain is made total with an explicit fuel parameter; running out
of fuel is a distinguished error value, never silently a default result.

External collaborators of def.ts that are consumed through narrow interfaces
(the decorator registration lookup, the component registration metadata lookup,
the circular-module placeholder predicate and resolver, the bridge prototype
factory, and the HTMLElementOriginalDescriptors property table) are modelled as
data carried by the `World`, following the contracts stated for them in the
specification.
-/

/-- Template artifacts are opaque values propagated but never interpreted by
this core; we represent them by their identity. -/
abbrev Template := Nat

/-- The default empty template that the root definition always carries
(secure-template defaultEmptyTemplate). -/
def defaultEmptyTemplate : Template := 0

/-- Registered component metadata, as returned by the external component
registration lookup: a display name and an optional template. -/
structure ComponentMeta where
  name : String
  template : Option Template := none
deriving Repr, DecidableEq

/-- One constructor (a JavaScript function object) of the prototype-chain
world.  `protoLink` is the result of `getPrototypeOf` (`none` models a null
prototype).  `isCircular`/`resolveTo` model the external circular-module
placeholder predicate and single-step resolver (`resolveTo = none` models a
resolver returning null).  The decorator-metadata name lists and the optional
observed-field list model the external decorator registration lookup: a
constructor with no registration simply carries empty lists, matching the
contract that absent registration means all categories are empty.  The
`own*` fields are the callback/render function identities declared on this
constructor prototype itself (class methods are own properties of the class
prototype object; anything a prototype read would inherit from an ancestor is
subsumed by the explicit superclass-definition fallback in
`createComponentDef`). -/
structure CtorData where
  protoLink : Option Nat := none
  isCircular : Bool := false
  resolveTo : Option Nat := none
  jsName : String := ""
  apiFields : List String := []
  apiMethods : List String := []
  wiredFields : List String := []
  wiredMethods : List String := []
  fields : Option (List String) := none
  registeredMeta : Option ComponentMeta := none
  ownConnected : Option Nat := none
  ownDisconnected : Option Nat := none
  ownRendered : Option Nat := none
  ownError : Option Nat := none
  ownRender : Option Nat := none
deriving Repr

/-- The world of loaded class objects: a table of constructors, the name table
of HTMLElementOriginalDescriptors (external to this core), and the build mode
(`dev = true` models process.env.NODE_ENV different from production). -/
structure World where
  ctors : Nat → CtorData
  htmlProps : List String := []
  dev : Bool := true

/-- The identity of BaseLightningElement inside a `World`. -/
def baseId : Nat := 0

/-- An arbitrary JavaScript value handed to the public API: a constructor of
the world, a plain (non-callable) object, or a primitive rendered by its
string form. -/
inductive JSVal where
  | ctor (id : Nat)
  | obj
  | prim (s : String)
deriving Repr, DecidableEq

/-- `isFunction` from shared/language: only constructors are callable. -/
def isFunction : JSVal → Bool
  | .ctor _ => true
  | _ => false

/-- Models the default string conversion a template literal applies to the
offending value in the not-a-component TypeError message. -/
def jsToString (w : World) : JSVal → String
  | .ctor c => (w.ctors c).jsName
  | .obj => "[object Object]"
  | .prim s => s

/-- `isCircularModuleDependency` from framework/utils: the external
circular-module placeholder predicate, carried by the world. -/
def isCircularModuleDependency (w : World) (c : Nat) : Bool :=
  (w.ctors c).isCircular

/-- `resolveCircularModuleDependency` from framework/utils: the external
single-step resolver, carried by the world (`none` models a null result; a
result equal to the argument is the defined root-reached signal). -/
def resolveCircularModuleDependency (w : World) (c : Nat) : Option Nat :=
  (w.ctors c).resolveTo

/-- The categorized decorator metadata of one class, exactly the shape
destructured from `getDecoratorsMeta` in `createComponentDef`. -/
structure DecoratorsMeta where
  apiFields : List String
  apiMethods : List String
  wiredFields : List String
  wiredMethods : List String
  fields : Option (List String)
deriving Repr, DecidableEq

/-- `getDecoratorsMeta` from decorators/register: the external decorator
registration lookup, read off the world (a constructor without registration
carries empty categories). -/
def getDecoratorsMeta (w : World) (c : Nat) : DecoratorsMeta :=
  { apiFields := (w.ctors c).apiFields
    apiMethods := (w.ctors c).apiMethods
    wiredFields := (w.ctors c).wiredFields
    wiredMethods := (w.ctors c).wiredMethods
    fields := (w.ctors c).fields }

/-- `getComponentRegisteredMeta` from framework/component: the external
component registration metadata lookup, read off the world. -/
def getComponentRegisteredMeta (w : World) (c : Nat) : Option ComponentMeta :=
  (w.ctors c).registeredMeta

/-- The bridge prototype constructors.  The factory
(base-bridge-element HTMLBridgeElementFactory) is external to this core; per
its contract it produces, from a superclass bridge and the own public
field/method names, a fresh prototype determined by exactly that data — we
model its output freely by that constructor application. -/
inductive BridgeProto where
  | base
  | factory (sup : BridgeProto) (apiFields apiMethods : List String)
deriving Repr, DecidableEq

/-- The ComponentDef record of def.ts.  Optional members are `Option`
(`none` models undefined); `ctor` is the constructor identity. -/
structure ComponentDef where
  name : String
  props : List String
  wire : List String
  template : Option Template
  ctor : Nat
  bridge : BridgeProto
  connectedCallback : Option Nat := none
  disconnectedCallback : Option Nat := none
  renderedCallback : Option Nat := none
  errorCallback : Option Nat := none
  render : Option Nat := none
deriving Repr, DecidableEq

/-- The mutable process state threaded through resolution: the CtorToDefMap
cache, a counter of decorator-metadata lookups (the observable side-effect
counter of the merge algorithm), and logs of the two prototype mutations
def.ts can perform (observed-field defineProperties, dev-mode freeze). -/
structure St where
  cache : List (Nat × ComponentDef) := []
  decoCalls : Nat := 0
  observedDefined : List Nat := []
  frozenProtos : List Nat := []
deriving Repr, DecidableEq

/-- First-match association lookup backing the cache. -/
def lookupCache : List (Nat × ComponentDef) → Nat → Option ComponentDef
  | [], _ => none
  | (k, d) :: rest, c => if k = c then some d else lookupCache rest c

/-- `CtorToDefMap.get`: a WeakMap get returns undefined for every key that can
not be held weakly (primitives) and for objects never inserted. -/
def cacheGet (st : St) (v : JSVal) : Option ComponentDef :=
  match v with
  | .ctor c => lookupCache st.cache c
  | _ => none

/-- JavaScript `a || b` on values that are either undefined or functions or
template artifacts (all truthy when present). -/
def jsOr {α : Type} (a b : Option α) : Option α :=
  match a with
  | some x => some x
  | none => b

/-- JavaScript `a || b` where `a` is an optional string argument (both
undefined and the empty string are falsy). -/
def strOr (a : Option String) (b : String) : String :=
  match a with
  | some s => if s = "" then b else s
  | none => b

/-- Increment of the decorator-metadata lookup counter (one
`getDecoratorsMeta` call). -/
def bumpDeco (st : St) : St :=
  { st with decoCalls := st.decoCalls + 1 }

/-- The error values def.ts can throw, plus the distinguished fuel-exhaustion
marker of the embedding. -/
inductive JSErr where
  | refError (msg : String)
  | typeError (msg : String)
  | outOfFuel
deriving Repr, DecidableEq

/-- The not-a-component TypeError message of `getComponentDef`. -/
def notAComponentMsg (w : World) (v : JSVal) : String :=
  jsToString w v ++ " is not a valid component, or does not extends LightningElement from \"lwc\". You probably forgot to add the extend clause on the class declaration."

/-- `getCtorProto` (def.ts lines 58-82): read the direct prototype link; a
null link is a ReferenceError naming the subclass; a circular-module
placeholder is resolved one step, where a null resolution is a dev-mode
ReferenceError (and flows through unchanged in production), and a
self-resolution is replaced by BaseLightningElement. -/
def getCtorProto (w : World) (c : Nat) (subclassComponentName : String) :
    Except JSErr (Option Nat) :=
  match (w.ctors c).protoLink with
  | none =>
    .error (.refError ("Invalid prototype chain for " ++ subclassComponentName ++ ", you must extend LightningElement."))
  | some proto =>
    if isCircularModuleDependency w proto then
      match resolveCircularModuleDependency w proto with
      | none =>
        if w.dev then
          .error (.refError ("Circular module dependency for " ++ subclassComponentName ++ ", must resolve to a constructor that extends LightningElement."))
        else
          .ok none
      | some p => .ok (if p = proto then some baseId else some p)
    else
      .ok (some proto)

/-- Models the fast-path check `ctor.prototype instanceof BaseLightningElement`
of `isComponentConstructor`: the instance-prototype chain of a genuinely
extending class mirrors its constructor chain, while the prototype object of a
circular-module placeholder is a fresh plain object, so the instanceof walk
succeeds exactly when the constructor chain reaches BaseLightningElement
through class-extension links with no placeholder in between. -/
def fastInstanceOfBase (w : World) : Nat → Nat → Bool
  | 0, _ => false
  | fuel + 1, c =>
    if (w.ctors c).isCircular then false
    else
      match (w.ctors c).protoLink with
      | none => false
      | some p => if p = baseId then true else fastInstanceOfBase w fuel p

/-- The slow-path do-while loop of `isComponentConstructor` (def.ts lines
170-187).  The `Option Nat` argument is the loop variable `current` (`none`
models null).  Each iteration: a circular placeholder is resolved one step,
self-resolution returns true, a null resolution falls out of the loop; then
the current node is compared against BaseLightningElement; then the loop
advances to `getPrototypeOf(current)`, exiting with false on null. -/
def isCCSlow (w : World) : Nat → Option Nat → Bool
  | _, none => false
  | 0, some _ => false
  | fuel + 1, some cur =>
    if (w.ctors cur).isCircular then
      match (w.ctors cur).resolveTo with
      | none => false
      | some r =>
        if r = cur then true
        else if r = baseId then true
        else isCCSlow w fuel ((w.ctors r).protoLink)
    else if cur = baseId then true
    else isCCSlow w fuel ((w.ctors cur).protoLink)

/-- `isComponentConstructor` (def.ts lines 157-191): false for every
non-callable value, otherwise the fast instanceof path or the slow
placeholder-aware chain walk.  It is a total Bool-valued function: it never
throws on any input. -/
def isComponentConstructor (w : World) (fuel : Nat) (v : JSVal) : Bool :=
  if ¬ isFunction v then false
  else
    match v with
    | .ctor c => fastInstanceOfBase w fuel c || isCCSlow w fuel (some c)
    | _ => false

/-- The canonical root definition `lightingElementDef` (def.ts lines 255-263,
keeping the source spelling).  Its props list is
`getOwnPropertyNames(HTMLElementOriginalDescriptors)`, carried by the world;
its template is the non-null default empty template; its render function is
the one declared on the BaseLightningElement prototype. -/
def lightingElementDef (w : World) : ComponentDef :=
  { ctor := baseId
    name := (w.ctors baseId).jsName
    props := w.htmlProps
    wire := []
    bridge := .base
    template := some defaultEmptyTemplate
    render := (w.ctors baseId).ownRender }

/-- Null superclass references flow into the recursive `getComponentDef` call
as the primitive null (whose string form is "null"). -/
def jsOfRef : Option Nat → JSVal
  | none => .prim "null"
  | some k => .ctor k

/-- The pure tail of `createComponentDef` (def.ts lines 119-145): bridge
materialization, ancestor-first props/wire concatenation, own-first fallback
of the lifecycle callbacks, render and template, assembled into the
ComponentDef record. -/
def mkDef (w : World) (c : Nat) (meta : ComponentMeta) (dm : DecoratorsMeta)
    (superDef : ComponentDef) : ComponentDef :=
  { ctor := c
    name := meta.name
    props := superDef.props ++ dm.apiFields
    wire := superDef.wire ++ dm.wiredFields ++ dm.wiredMethods
    bridge := .factory superDef.bridge dm.apiFields dm.apiMethods
    template := jsOr meta.template superDef.template
    connectedCallback := jsOr (w.ctors c).ownConnected superDef.connectedCallback
    disconnectedCallback := jsOr (w.ctors c).ownDisconnected superDef.disconnectedCallback
    renderedCallback := jsOr (w.ctors c).ownRendered superDef.renderedCallback
    errorCallback := jsOr (w.ctors c).ownError superDef.errorCallback
    render := jsOr (w.ctors c).ownRender superDef.render }

/-- The prototype mutations at the end of `createComponentDef`: when the class
declares observed fields, `defineProperties` installs their descriptors on the
class prototype (in every build mode, def.ts lines 129-131); then, in dev mode
only, the class prototype is frozen (def.ts lines 147-149). -/
def postState (w : World) (c : Nat) (dm : DecoratorsMeta) (st : St) : St :=
  let st1 :=
    match dm.fields with
    | some _ => { st with observedDefined := c :: st.observedDefined }
    | none => st
  if w.dev then { st1 with frozenProtos := c :: st1.frozenProtos } else st1

/-- def.ts lines 113-117 parameterized by the recursive `getComponentDef`
call: resolve the superclass constructor, then obtain its definition — the
canonical root definition when it is BaseLightningElement, a recursive
(memoized) resolution otherwise.  (The `isNull(superDef)` guard of line 118 is
dead: neither branch produces null, so the superclass bridge is always
`superDef.bridge`.) -/
def resolveSuperDefF
    (recur : St → JSVal → Option String → St × Except JSErr ComponentDef)
    (w : World) (st : St) (c : Nat) (nm : String) :
    St × Except JSErr ComponentDef :=
  match getCtorProto w c nm with
  | .error e => (st, .error e)
  | .ok superProto =>
    if superProto ≠ some baseId then recur st (jsOfRef superProto) (some nm)
    else (st, .ok (lightingElementDef w))

/-- `createComponentDef` (def.ts lines 84-151) parameterized by the recursive
`getComponentDef` call.  The decorator-metadata lookup happens first (counted
in the state); the dev-mode assert of lines 89-98 checks `Ctor.constructor`,
which every function object inherits from Function.prototype, so it never
fires and is not modelled.  Errors of the superclass resolution propagate
unchanged; on success the merged definition is built and the prototype
mutations are logged. -/
def createComponentDefF
    (recur : St → JSVal → Option String → St × Except JSErr ComponentDef)
    (w : World) (st : St) (c : Nat) (meta : ComponentMeta) (nm : String) :
    St × Except JSErr ComponentDef :=
  let st1 := bumpDeco st
  let dm := getDecoratorsMeta w c
  match resolveSuperDefF recur w st1 c nm with
  | (st2, .error e) => (st2, .error e)
  | (st2, .ok superDef) => (postState w c dm st2, .ok (mkDef w c meta dm superDef))

/-- One step of `getComponentDef` (def.ts lines 197-221) parameterized by the
recursive call: cache lookup by constructor identity; on a miss, the
component-type recognition gate (throwing the naming TypeError before any
metadata extraction), then the registered-metadata lookup with its
absent-registration default, then the definition build followed by the cache
insert.  (`ccFuel` is the fuel handed to the recognition walk; the middle
wildcard branch is unreachable because recognition only accepts callable
values.) -/
def getComponentDefStep
    (recur : St → JSVal → Option String → St × Except JSErr ComponentDef)
    (w : World) (ccFuel : Nat) (st : St) (v : JSVal) (nm : Option String) :
    St × Except JSErr ComponentDef :=
  match cacheGet st v with
  | some d => (st, .ok d)
  | none =>
    if isComponentConstructor w ccFuel v then
      match v with
      | .ctor c =>
        let meta :=
          match getComponentRegisteredMeta w c with
          | some m => m
          | none => { template := none, name := (w.ctors c).jsName }
        match createComponentDefF recur w st c meta (strOr nm (w.ctors c).jsName) with
        | (st2, .ok d) => ({ st2 with cache := (c, d) :: st2.cache }, .ok d)
        | (st2, .error e) => (st2, .error e)
      | _ => (st, .error (.typeError (notAComponentMsg w v)))
    else (st, .error (.typeError (notAComponentMsg w v)))

/-- `getComponentDef`, made total by fuel: each recursive superclass
resolution consumes one unit.  Exhausted fuel is the distinguished
`outOfFuel` error, so no result is ever fabricated. -/
def getComponentDef (w : World) :
    Nat → St → JSVal → Option String → St × Except JSErr ComponentDef
  | 0, st, _, _ => (st, .error .outOfFuel)
  | fuel + 1, st, v, nm =>
    getComponentDefStep (fun st2 v2 nm2 => getComponentDef w fuel st2 v2 nm2)
      w (fuel + 1) st v nm

/-- `createComponentDef` at a given fuel: its recursive superclass resolutions
run `getComponentDef` at that fuel. -/
def createComponentDef (w : World) (fuel : Nat) (st : St) (c : Nat)
    (meta : ComponentMeta) (nm : String) : St × Except JSErr ComponentDef :=
  createComponentDefF (fun st2 v2 nm2 => getComponentDef w fuel st2 v2 nm2)
    w st c meta nm

/-- The superclass-definition resolution (def.ts lines 113-117) at a given
fuel. -/
def resolveSuperDef (w : World) (fuel : Nat) (st : St) (c : Nat) (nm : String) :
    St × Except JSErr ComponentDef :=
  resolveSuperDefF (fun st2 v2 nm2 => getComponentDef w fuel st2 v2 nm2)
    w st c nm

/-- A three-level inheritance chain over the base: constructor 1 is A
(extends BaseLightningElement, one public field "fa"), 2 is B (extends A,
public field "fb"), 3 is C (extends B, public field "fc").  Following the
specification scenario, the root ancestor contributes no own property names
(the HTMLElementOriginalDescriptors table, external to this core, is modelled
empty as the specification end-to-end scenario prescribes). -/
def wChain : World :=
  { ctors := fun n =>
      match n with
      | 1 => { protoLink := some baseId, jsName := "A", apiFields := ["fa"] }
      | 2 => { protoLink := some 1, jsName := "B", apiFields := ["fb"] }
      | 3 => { protoLink := some 2, jsName := "C", apiFields := ["fc"] }
      | _ => { jsName := "LightningElement" } }

/-- The Root/Mid/Leaf end-to-end scenario: Root (constructor 1) extends the
base, declares no fields and no own template; Mid (constructor 2) declares
public field "label" and template T1 (= 1); Leaf (constructor 3) declares
public field "count" and no own template. -/
def wRML : World :=
  { ctors := fun n =>
      match n with
      | 1 => { protoLink := some baseId, jsName := "Root",
               registeredMeta := some { name := "Root", template := none } }
      | 2 => { protoLink := some 1, jsName := "Mid", apiFields := ["label"],
               registeredMeta := some { name := "Mid", template := some 1 } }
      | 3 => { protoLink := some 2, jsName := "Leaf", apiFields := ["count"] }
      | _ => { jsName := "LightningElement" } }


/-- A successful resolution always leaves its definition in the cache under
the constructor identity it was called with. -/
lemma getComponentDef_ok_cached {w : World} {fuel : Nat} {st : St} {v : JSVal}
    {nm : Option String} {st' : St} {d : ComponentDef}
    (h : getComponentDef w fuel st v nm = (st', Except.ok d)) :
    cacheGet st' v = some d := by
  cases fuel with
  | zero => simp [getComponentDef] at h
  | succ fuel =>
    rw [getComponentDef] at h
    unfold getComponentDefStep at h
    split at h
    case h_1 d0 hc =>
      simp only [Prod.mk.injEq, Except.ok.injEq] at h
      obtain ⟨rfl, rfl⟩ := h
      exact hc
    case h_2 hc =>
      split at h
      · split at h
        · split at h
          all_goals dsimp only at h
          all_goals split at h
          all_goals
            first
            | (simp only [Prod.mk.injEq, Except.ok.injEq] at h
               obtain ⟨rfl, rfl⟩ := h
               simp [cacheGet, lookupCache])
            | simp at h
        · simp at h
      · simp at h

/-- Claim C1: for every component constructor, once `getComponentDef` has
succeeded, any later call with the same constructor (any fuel, any display
name) returns the identical cached ComponentDef and leaves the whole state —
cache and decorator-metadata call counter included — untouched, so the merge
algorithm and its metadata lookup run at most once per distinct constructor
and the cached definition is never recomputed or replaced. -/
theorem getComponentDef_memoized_idempotent (w : World) (fuel : Nat) (st : St)
    (v : JSVal) (nm : Option String) (st' : St) (d : ComponentDef)
    (h : getComponentDef w fuel st v nm = (st', Except.ok d))
    (fuel2 : Nat) (nm2 : Option String) :
    getComponentDef w (fuel2 + 1) st' v nm2 = (st', Except.ok d) := by
  have hc := getComponentDef_ok_cached h
  rw [getComponentDef]
  unfold getComponentDefStep
  rw [hc]

/-- The definition the wChain scenario computes for constructor A. -/
def defA : ComponentDef :=
  { name := "A", props := ["fa"], wire := [], template := some defaultEmptyTemplate,
    ctor := 1, bridge := .factory .base ["fa"] [] }

/-- The state after resolving constructor A of wChain from the empty state:
its definition cached, one decorator-metadata lookup, its prototype frozen
(dev mode). -/
def stA : St := { cache := [(1, defA)], decoCalls := 1, frozenProtos := [1] }

theorem getComponentDef_memoized_idempotent_witness :
    getComponentDef wChain 5 stA (JSVal.ctor 1) (some "Other") = (stA, Except.ok defA) :=
  getComponentDef_memoized_idempotent wChain 3 {} (JSVal.ctor 1) none stA defA rfl 4 (some "Other")

/-- Claim C2: for the three-level chain A→B→C over the base, each level
declaring exactly one public field, the resolved props of C are exactly
["fa", "fb", "fc"] in ancestor-first order and nothing else; and in the
Root/Mid/Leaf scenario (Root fieldless with the default template, Mid
declaring "label" and template 1, Leaf declaring "count" and no template),
the resolved props of Leaf are exactly ["label", "count"] and its template is
template 1, the one Mid declared. -/
theorem chain_scenario_props_template :
    (getComponentDef wChain 9 {} (JSVal.ctor 3) none).2.map ComponentDef.props =
      Except.ok ["fa", "fb", "fc"] ∧
    (getComponentDef wRML 9 {} (JSVal.ctor 3) none).2.map ComponentDef.props =
      Except.ok ["label", "count"] ∧
    (getComponentDef wRML 9 {} (JSVal.ctor 3) none).2.map ComponentDef.template =
      Except.ok (some 1) := by
  refine ⟨rfl, rfl, rfl⟩

/-- Claim C3: every successfully built definition satisfies the merge
equations of `createComponentDef`: props is the superclass definition props
with the class own public field names appended, and wire is the superclass
definition wire with the class own wired field names and then its own wired
method names appended — plain concatenations, ancestor-first, with no
deduplication of re-declared names. -/
theorem createComponentDef_merge_equations (w : World) (fuel : Nat) (st : St)
    (c : Nat) (meta : ComponentMeta) (nm : String) (st' : St) (d : ComponentDef)
    (h : createComponentDef w fuel st c meta nm = (st', Except.ok d)) :
    ∃ sd, (resolveSuperDef w fuel (bumpDeco st) c nm).2 = Except.ok sd ∧
      d.props = sd.props ++ (getDecoratorsMeta w c).apiFields ∧
      d.wire = sd.wire ++ (getDecoratorsMeta w c).wiredFields ++
        (getDecoratorsMeta w c).wiredMethods := by
  unfold createComponentDef createComponentDefF at h
  dsimp only at h
  split at h
  case h_1 => simp at h
  case h_2 st2 sd heq =>
    simp only [Prod.mk.injEq, Except.ok.injEq] at h
    obtain ⟨rfl, rfl⟩ := h
    refine ⟨sd, ?_, rfl, rfl⟩
    unfold resolveSuperDef
    rw [heq]

theorem createComponentDef_merge_equations_witness :
    ∃ sd, (resolveSuperDef wChain 2 (bumpDeco {}) 1 "A").2 = Except.ok sd ∧
      defA.props = sd.props ++ (getDecoratorsMeta wChain 1).apiFields ∧
      defA.wire = sd.wire ++ (getDecoratorsMeta wChain 1).wiredFields ++
        (getDecoratorsMeta wChain 1).wiredMethods :=
  createComponentDef_merge_equations wChain 2 {} 1 { name := "A" } "A"
    { decoCalls := 1, frozenProtos := [1] } defA rfl

/-- Every definition stored in the cache carries a template (never
undefined). -/
def templOk (st : St) : Bool :=
  st.cache.all (fun p => p.2.template.isSome)

lemma jsOr_isSome {α : Type} {a b : Option α} (h : b.isSome = true) :
    (jsOr a b).isSome = true := by
  cases a <;> simp [jsOr, h]

lemma postState_cache (w : World) (c : Nat) (dm : DecoratorsMeta) (st : St) :
    (postState w c dm st).cache = st.cache := by
  unfold postState
  dsimp only
  split <;> split <;> rfl

lemma bumpDeco_cache (st : St) : (bumpDeco st).cache = st.cache := rfl

lemma templOk_bumpDeco (st : St) : templOk (bumpDeco st) = templOk st := rfl

lemma templOk_postState (w : World) (c : Nat) (dm : DecoratorsMeta) (st : St) :
    templOk (postState w c dm st) = templOk st := by
  unfold templOk
  rw [postState_cache]

lemma lookupCache_all {l : List (Nat × ComponentDef)} {c : Nat} {d : ComponentDef}
    (hall : l.all (fun p => p.2.template.isSome) = true)
    (h : lookupCache l c = some d) : d.template.isSome = true := by
  induction l with
  | nil => simp [lookupCache] at h
  | cons hd tl ih =>
    obtain ⟨k, d0⟩ := hd
    simp only [List.all_cons, Bool.and_eq_true] at hall
    unfold lookupCache at h
    split at h
    · obtain rfl := Option.some.injEq .. ▸ h
      injection h with h
      exact h ▸ hall.1
    · exact ih hall.2 h

lemma cacheGet_templ {st : St} {v : JSVal} {d : ComponentDef}
    (hok : templOk st = true) (h : cacheGet st v = some d) :
    d.template.isSome = true := by
  cases v with
  | ctor c => exact lookupCache_all hok h
  | obj => simp [cacheGet] at h
  | prim s => simp [cacheGet] at h

/-- Template invariant through the superclass resolution, given it for the
recursive call. -/
lemma resolveSuperDefF_templ
    {recur : St → JSVal → Option String → St × Except JSErr ComponentDef}
    (hrec : ∀ st v nm st' d, templOk st = true → recur st v nm = (st', Except.ok d) →
      d.template.isSome = true ∧ templOk st' = true)
    {w : World} {st : St} {c : Nat} {nm : String} {st' : St} {sd : ComponentDef}
    (hok : templOk st = true)
    (h : resolveSuperDefF recur w st c nm = (st', Except.ok sd)) :
    sd.template.isSome = true ∧ templOk st' = true := by
  unfold resolveSuperDefF at h
  split at h
  · simp at h
  · split at h
    · exact hrec _ _ _ _ _ hok h
    · simp only [Prod.mk.injEq, Except.ok.injEq] at h
      obtain ⟨rfl, rfl⟩ := h
      exact ⟨rfl, hok⟩

/-- Template invariant through one definition build, given it for the
recursive call. -/
lemma createComponentDefF_templ
    {recur : St → JSVal → Option String → St × Except JSErr ComponentDef}
    (hrec : ∀ st v nm st' d, templOk st = true → recur st v nm = (st', Except.ok d) →
      d.template.isSome = true ∧ templOk st' = true)
    {w : World} {st : St} {c : Nat} {meta : ComponentMeta} {nm : String}
    {st' : St} {d : ComponentDef}
    (hok : templOk st = true)
    (h : createComponentDefF recur w st c meta nm = (st', Except.ok d)) :
    d.template.isSome = true ∧ templOk st' = true := by
  unfold createComponentDefF at h
  dsimp only at h
  split at h
  case h_1 => simp at h
  case h_2 st2 sd heq =>
    have hok2 : templOk (bumpDeco st) = true := by
      rw [templOk_bumpDeco]; exact hok
    have hres := resolveSuperDefF_templ hrec hok2 heq
    simp only [Prod.mk.injEq, Except.ok.injEq] at h
    obtain ⟨rfl, rfl⟩ := h
    refine ⟨jsOr_isSome hres.1, ?_⟩
    rw [templOk_postState]
    exact hres.2

/-- Template invariant through one `getComponentDef` step, given it for the
recursive call. -/
lemma getComponentDefStep_templ
    {recur : St → JSVal → Option String → St × Except JSErr ComponentDef}
    (hrec : ∀ st v nm st' d, templOk st = true → recur st v nm = (st', Except.ok d) →
      d.template.isSome = true ∧ templOk st' = true)
    {w : World} {ccFuel : Nat} {st : St} {v : JSVal} {nm : Option String}
    {st' : St} {d : ComponentDef}
    (hok : templOk st = true)
    (h : getComponentDefStep recur w ccFuel st v nm = (st', Except.ok d)) :
    d.template.isSome = true ∧ templOk st' = true := by
  unfold getComponentDefStep at h
  split at h
  case h_1 d0 hc =>
    simp only [Prod.mk.injEq, Except.ok.injEq] at h
    obtain ⟨rfl, rfl⟩ := h
    exact ⟨cacheGet_templ hok hc, hok⟩
  case h_2 hc =>
    split at h
    · split at h
      · split at h
        all_goals dsimp only at h
        all_goals split at h
        all_goals
          first
          | (rename_i st2 d1 heq
             simp only [Prod.mk.injEq, Except.ok.injEq] at h
             obtain ⟨rfl, rfl⟩ := h
             have hcr := createComponentDefF_templ hrec hok heq
             refine ⟨hcr.1, ?_⟩
             simp [templOk, List.all_cons, hcr.1]
             have := hcr.2
             simpa [templOk] using this)
          | simp at h
      · simp at h
    · simp at h

/-- Every successful `getComponentDef` run started from a template-sound
cache returns a definition with a template and preserves cache template
soundness. -/
lemma getComponentDef_templ {w : World} : ∀ (fuel : Nat) (st : St) (v : JSVal)
    (nm : Option String) (st' : St) (d : ComponentDef),
    templOk st = true → getComponentDef w fuel st v nm = (st', Except.ok d) →
    d.template.isSome = true ∧ templOk st' = true := by
  intro fuel
  induction fuel with
  | zero => intro st v nm st' d _ h; simp [getComponentDef] at h
  | succ fuel ih =>
    intro st v nm st' d hok h
    rw [getComponentDef] at h
    exact getComponentDefStep_templ
      (fun st2 v2 nm2 st2' d2 hok2 h2 => ih st2 v2 nm2 st2' d2 hok2 h2) hok h

/-- Claim C4: in every successfully built definition, each optional lifecycle
callback and the template equal the class own declared value when present and
otherwise the resolved superclass definition value (single-inheritance
fallback, expressed by the JavaScript or-else); the root definition template
is the non-null default empty template, and consequently (from a
template-sound cache, e.g. the empty one) every built definition has a
non-null template. -/
theorem createComponentDef_fallbacks_and_template (w : World) (fuel : Nat)
    (st : St) (c : Nat) (meta : ComponentMeta) (nm : String) (st' : St)
    (d : ComponentDef) (hok : templOk st = true)
    (h : createComponentDef w fuel st c meta nm = (st', Except.ok d)) :
    ∃ sd, (resolveSuperDef w fuel (bumpDeco st) c nm).2 = Except.ok sd ∧
      d.connectedCallback = jsOr (w.ctors c).ownConnected sd.connectedCallback ∧
      d.disconnectedCallback = jsOr (w.ctors c).ownDisconnected sd.disconnectedCallback ∧
      d.renderedCallback = jsOr (w.ctors c).ownRendered sd.renderedCallback ∧
      d.errorCallback = jsOr (w.ctors c).ownError sd.errorCallback ∧
      d.render = jsOr (w.ctors c).ownRender sd.render ∧
      d.template = jsOr meta.template sd.template ∧
      (lightingElementDef w).template = some defaultEmptyTemplate ∧
      d.template.isSome = true := by
  have htempl :=
    createComponentDefF_templ
      (fun st2 v2 nm2 st2' d2 hok2 h2 =>
        getComponentDef_templ fuel st2 v2 nm2 st2' d2 hok2 h2)
      hok h
  unfold createComponentDef createComponentDefF at h
  dsimp only at h
  split at h
  case h_1 => simp at h
  case h_2 st2 sd heq =>
    simp only [Prod.mk.injEq, Except.ok.injEq] at h
    obtain ⟨rfl, rfl⟩ := h
    refine ⟨sd, ?_, rfl, rfl, rfl, rfl, rfl, rfl, rfl, htempl.1⟩
    unfold resolveSuperDef
    rw [heq]

theorem createComponentDef_fallbacks_and_template_witness :
    ∃ sd, (resolveSuperDef wChain 2 (bumpDeco {}) 1 "A").2 = Except.ok sd ∧
      defA.connectedCallback = jsOr (wChain.ctors 1).ownConnected sd.connectedCallback ∧
      defA.disconnectedCallback = jsOr (wChain.ctors 1).ownDisconnected sd.disconnectedCallback ∧
      defA.renderedCallback = jsOr (wChain.ctors 1).ownRendered sd.renderedCallback ∧
      defA.errorCallback = jsOr (wChain.ctors 1).ownError sd.errorCallback ∧
      defA.render = jsOr (wChain.ctors 1).ownRender sd.render ∧
      defA.template = jsOr (ComponentMeta.mk "A" none).template sd.template ∧
      (lightingElementDef wChain).template = some defaultEmptyTemplate ∧
      defA.template.isSome = true :=
  createComponentDef_fallbacks_and_template wChain 2 {} 1 { name := "A" } "A"
    { decoCalls := 1, frozenProtos := [1] } defA rfl rfl

/-- The prototype chain from a constructor reaches a given node through
ordinary (non-placeholder, non-root) class links within the given number of
steps — the walk the slow recognition loop performs before any placeholder
indirection fires. -/
def slowReachable (w : World) (p : Nat) : Nat → Nat → Bool
  | 0, _ => false
  | fuel + 1, c =>
    if c = p then true
    else if (w.ctors c).isCircular then false
    else if c = baseId then false
    else
      match (w.ctors c).protoLink with
      | some q => slowReachable w p fuel q
      | none => false

lemma isCCSlow_of_slowReachable {w : World} {p : Nat}
    (hcirc : (w.ctors p).isCircular = true)
    (hself : (w.ctors p).resolveTo = some p) :
    ∀ (fuel : Nat) (c : Nat), slowReachable w p fuel c = true →
      isCCSlow w fuel (some c) = true := by
  intro fuel
  induction fuel with
  | zero => intro c h; simp [slowReachable] at h
  | succ fuel ih =>
    intro c h
    unfold slowReachable at h
    unfold isCCSlow
    by_cases hp : c = p
    · subst hp
      rw [hcirc]
      simp [hcirc, hself]
    · rw [if_neg hp] at h
      split at h
      · simp at h
      · split at h
        · simp at h
        · rename_i hnc hnb
          rw [if_neg (by simpa using hnc)]
          rw [if_neg hnb]
          split at h
          · rename_i q hq
            rw [hq]
            exact ih q h
          · simp at h

/-- Claim C5: a circular-module placeholder whose single-step resolver
returns the placeholder itself is treated as having reached the framework
root: superclass resolution substitutes BaseLightningElement for it (one
indirection step, no recursion), and `isComponentConstructor` returns true
for every constructor whose ordinary prototype chain reaches such a
placeholder — both computations are total functions of an explicit fuel
bounded by the chain length, so they terminate rather than loop. -/
theorem circular_self_resolution_reaches_root (w : World) (p : Nat)
    (hcirc : isCircularModuleDependency w p = true)
    (hself : resolveCircularModuleDependency w p = some p) :
    (∀ c nm, (w.ctors c).protoLink = some p →
      getCtorProto w c nm = Except.ok (some baseId)) ∧
    (∀ fuel c, slowReachable w p fuel c = true →
      isComponentConstructor w fuel (JSVal.ctor c) = true) := by
  have hc : (w.ctors p).isCircular = true := hcirc
  have hr : (w.ctors p).resolveTo = some p := hself
  constructor
  · intro c nm hlink
    unfold getCtorProto
    rw [hlink]
    simp [isCircularModuleDependency, resolveCircularModuleDependency, hc, hr]
  · intro fuel c h
    have := isCCSlow_of_slowReachable hc hr fuel c h
    simp [isComponentConstructor, isFunction, this]

/-- A world with a self-resolving circular placeholder (constructor 5) and a
class (constructor 6) extending it. -/
def wCirc : World :=
  { ctors := fun n =>
      match n with
      | 5 => { isCircular := true, resolveTo := some 5, jsName := "Placeholder" }
      | 6 => { protoLink := some 5, jsName := "ViaPlaceholder" }
      | _ => { jsName := "LightningElement" } }

theorem circular_self_resolution_reaches_root_witness :
    getCtorProto wCirc 6 "ViaPlaceholder" = Except.ok (some baseId) ∧
    isComponentConstructor wCirc 3 (JSVal.ctor 6) = true := by
  have h := circular_self_resolution_reaches_root wCirc 5 rfl rfl
  exact ⟨h.1 6 "ViaPlaceholder" rfl, h.2 3 6 (by decide)⟩

/-- Claim C6: `isComponentConstructor` is false for every non-callable value
(it is a total Bool function, hence never throws), and for every value that
fails component-type recognition and is not already cached, `getComponentDef`
returns the TypeError whose message starts with the string form of the
offending value — with the state completely unchanged, so the check happens
before any metadata extraction (the decorator-metadata counter has not
moved). -/
theorem non_component_rejection (w : World) (fuel : Nat) (st : St)
    (v : JSVal) (nm : Option String) :
    (isFunction v = false → isComponentConstructor w fuel v = false) ∧
    (isComponentConstructor w (fuel + 1) v = false → cacheGet st v = none →
      getComponentDef w (fuel + 1) st v nm =
        (st, Except.error (JSErr.typeError (jsToString w v ++
          " is not a valid component, or does not extends LightningElement from \"lwc\". You probably forgot to add the extend clause on the class declaration.")))) := by
  constructor
  · intro hv
    simp [isComponentConstructor, hv]
  · intro hcc hcache
    rw [getComponentDef]
    unfold getComponentDefStep
    rw [hcache]
    rw [if_neg (by simp [hcc])]
    rfl

/-- A world holding a function (constructor 7) whose prototype is null, i.e.
a function that does not descend from the base component type. -/
def wBad : World :=
  { ctors := fun n =>
      match n with
      | 7 => { jsName := "Orphan" }
      | _ => { jsName := "LightningElement" } }

theorem non_component_rejection_witness :
    isComponentConstructor wBad 3 JSVal.obj = false ∧
    getComponentDef wBad 4 {} JSVal.obj none =
      ({}, Except.error (JSErr.typeError
        "[object Object] is not a valid component, or does not extends LightningElement from \"lwc\". You probably forgot to add the extend clause on the class declaration.")) ∧
    isComponentConstructor wBad 3 (JSVal.prim "5") = false ∧
    getComponentDef wBad 4 {} (JSVal.prim "5") none =
      ({}, Except.error (JSErr.typeError
        "5 is not a valid component, or does not extends LightningElement from \"lwc\". You probably forgot to add the extend clause on the class declaration.")) ∧
    getComponentDef wBad 4 {} (JSVal.ctor 7) none =
      ({}, Except.error (JSErr.typeError
        "Orphan is not a valid component, or does not extends LightningElement from \"lwc\". You probably forgot to add the extend clause on the class declaration.")) :=
  ⟨(non_component_rejection wBad 3 {} JSVal.obj none).1 rfl,
   (non_component_rejection wBad 3 {} JSVal.obj none).2 rfl rfl,
   (non_component_rejection wBad 3 {} (JSVal.prim "5") none).1 rfl,
   (non_component_rejection wBad 3 {} (JSVal.prim "5") none).2 rfl rfl,
   (non_component_rejection wBad 3 {} (JSVal.ctor 7) none).2 (by decide) rfl⟩

/-- A failing superclass resolution never changes the cache, given that for
the recursive call. -/
lemma resolveSuperDefF_err_cache
    {recur : St → JSVal → Option String → St × Except JSErr ComponentDef}
    (hrec : ∀ st v nm st' e, recur st v nm = (st', Except.error e) →
      st'.cache = st.cache)
    {w : World} {st : St} {c : Nat} {nm : String} {st' : St} {e : JSErr}
    (h : resolveSuperDefF recur w st c nm = (st', Except.error e)) :
    st'.cache = st.cache := by
  unfold resolveSuperDefF at h
  split at h
  · simp only [Prod.mk.injEq, Except.error.injEq] at h
    obtain ⟨rfl, rfl⟩ := h
    rfl
  · split at h
    · exact hrec _ _ _ _ _ h
    · simp at h

/-- A failing definition build never changes the cache, given that for the
recursive call. -/
lemma createComponentDefF_err_cache
    {recur : St → JSVal → Option String → St × Except JSErr ComponentDef}
    (hrec : ∀ st v nm st' e, recur st v nm = (st', Except.error e) →
      st'.cache = st.cache)
    {w : World} {st : St} {c : Nat} {meta : ComponentMeta} {nm : String}
    {st' : St} {e : JSErr}
    (h : createComponentDefF recur w st c meta nm = (st', Except.error e)) :
    st'.cache = st.cache := by
  unfold createComponentDefF at h
  dsimp only at h
  split at h
  case h_1 st2 e0 heq =>
    simp only [Prod.mk.injEq, Except.error.injEq] at h
    obtain ⟨rfl, rfl⟩ := h
    exact (resolveSuperDefF_err_cache hrec heq).trans (bumpDeco_cache st)
  case h_2 => simp at h

/-- A failing `getComponentDef` step never changes the cache, given that for
the recursive call. -/
lemma getComponentDefStep_err_cache
    {recur : St → JSVal → Option String → St × Except JSErr ComponentDef}
    (hrec : ∀ st v nm st' e, recur st v nm = (st', Except.error e) →
      st'.cache = st.cache)
    {w : World} {ccFuel : Nat} {st : St} {v : JSVal} {nm : Option String}
    {st' : St} {e : JSErr}
    (h : getComponentDefStep recur w ccFuel st v nm = (st', Except.error e)) :
    st'.cache = st.cache := by
  unfold getComponentDefStep at h
  split at h
  case h_1 => simp at h
  case h_2 hc =>
    split at h
    · split at h
      · split at h
        all_goals dsimp only at h
        all_goals split at h
        all_goals
          first
          | (rename_i st2 e2 heq
             simp only [Prod.mk.injEq, Except.error.injEq] at h
             obtain ⟨rfl, rfl⟩ := h
             exact createComponentDefF_err_cache hrec heq)
          | simp at h
      · simp only [Prod.mk.injEq, Except.error.injEq] at h
        obtain ⟨rfl, rfl⟩ := h
        rfl
    · simp only [Prod.mk.injEq, Except.error.injEq] at h
      obtain ⟨rfl, rfl⟩ := h
      rfl

/-- A failing resolution run leaves the whole cache exactly as it was. -/
lemma getComponentDef_err_cache {w : World} : ∀ (fuel : Nat) (st : St)
    (v : JSVal) (nm : Option String) (st' : St) (e : JSErr),
    getComponentDef w fuel st v nm = (st', Except.error e) →
    st'.cache = st.cache := by
  intro fuel
  induction fuel with
  | zero =>
    intro st v nm st' e h
    simp only [getComponentDef, Prod.mk.injEq] at h
    obtain ⟨rfl, -⟩ := h
    rfl
  | succ fuel ih =>
    intro st v nm st' e h
    rw [getComponentDef] at h
    exact getComponentDefStep_err_cache
      (fun st2 v2 nm2 st2' e2 h2 => ih st2 v2 nm2 st2' e2 h2) h

lemma cacheGet_congr {st1 st2 : St} (h : st1.cache = st2.cache) (v : JSVal) :
    cacheGet st1 v = cacheGet st2 v := by
  cases v <;> simp [cacheGet, h]

/-- Resolution behaviour depends on the state only through the cache
(superclass resolution layer). -/
lemma resolveSuperDefF_congr
    {recur : St → JSVal → Option String → St × Except JSErr ComponentDef}
    (hrec : ∀ st1 st2 v nm, st1.cache = st2.cache →
      (recur st1 v nm).2 = (recur st2 v nm).2 ∧
      (recur st1 v nm).1.cache = (recur st2 v nm).1.cache)
    {w : World} {st1 st2 : St} (hcc : st1.cache = st2.cache) (c : Nat) (nm : String) :
    (resolveSuperDefF recur w st1 c nm).2 = (resolveSuperDefF recur w st2 c nm).2 ∧
    (resolveSuperDefF recur w st1 c nm).1.cache =
      (resolveSuperDefF recur w st2 c nm).1.cache := by
  unfold resolveSuperDefF
  cases hgp : getCtorProto w c nm with
  | error e => simp [hcc]
  | ok sp =>
    by_cases hb : sp ≠ some baseId
    · simp only [if_pos hb]
      exact hrec st1 st2 _ _ hcc
    · simp only [if_neg hb]
      exact ⟨by simp, hcc⟩

/-- Resolution behaviour depends on the state only through the cache
(definition build layer). -/
lemma createComponentDefF_congr
    {recur : St → JSVal → Option String → St × Except JSErr ComponentDef}
    (hrec : ∀ st1 st2 v nm, st1.cache = st2.cache →
      (recur st1 v nm).2 = (recur st2 v nm).2 ∧
      (recur st1 v nm).1.cache = (recur st2 v nm).1.cache)
    {w : World} {st1 st2 : St} (hcc : st1.cache = st2.cache) (c : Nat)
    (meta : ComponentMeta) (nm : String) :
    (createComponentDefF recur w st1 c meta nm).2 =
      (createComponentDefF recur w st2 c meta nm).2 ∧
    (createComponentDefF recur w st1 c meta nm).1.cache =
      (createComponentDefF recur w st2 c meta nm).1.cache := by
  unfold createComponentDefF
  dsimp only
  have hbump : (bumpDeco st1).cache = (bumpDeco st2).cache := by
    rw [bumpDeco_cache, bumpDeco_cache]; exact hcc
  have hres := resolveSuperDefF_congr hrec (w := w) hbump c nm
  rcases h1 : resolveSuperDefF recur w (bumpDeco st1) c nm with ⟨s1, r1⟩
  rcases h2 : resolveSuperDefF recur w (bumpDeco st2) c nm with ⟨s2, r2⟩
  rw [h1, h2] at hres
  obtain ⟨hr, hcache2⟩ := hres
  dsimp only at hr hcache2
  subst hr
  cases r1 with
  | error e => exact ⟨rfl, hcache2⟩
  | ok sd =>
    refine ⟨rfl, ?_⟩
    dsimp only
    rw [postState_cache, postState_cache]
    exact hcache2

/-- Resolution behaviour depends on the state only through the cache
(`getComponentDef` step layer). -/
lemma getComponentDefStep_congr
    {recur : St → JSVal → Option String → St × Except JSErr ComponentDef}
    (hrec : ∀ st1 st2 v nm, st1.cache = st2.cache →
      (recur st1 v nm).2 = (recur st2 v nm).2 ∧
      (recur st1 v nm).1.cache = (recur st2 v nm).1.cache)
    {w : World} {ccFuel : Nat} {st1 st2 : St} (hcc : st1.cache = st2.cache)
    (v : JSVal) (nm : Option String) :
    (getComponentDefStep recur w ccFuel st1 v nm).2 =
      (getComponentDefStep recur w ccFuel st2 v nm).2 ∧
    (getComponentDefStep recur w ccFuel st1 v nm).1.cache =
      (getComponentDefStep recur w ccFuel st2 v nm).1.cache := by
  unfold getComponentDefStep
  rw [cacheGet_congr hcc v]
  cases hm : cacheGet st2 v with
  | some d => exact ⟨rfl, hcc⟩
  | none =>
    by_cases hcond : isComponentConstructor w ccFuel v = true
    · simp only [if_pos hcond]
      cases v with
      | ctor c =>
        dsimp only
        have hcr := createComponentDefF_congr hrec (w := w) hcc c
          (match getComponentRegisteredMeta w c with
           | some m => m
           | none => { template := none, name := (w.ctors c).jsName })
          (strOr nm (w.ctors c).jsName)
        rcases h1 : createComponentDefF recur w st1 c _ _ with ⟨s1, r1⟩
        rcases h2 : createComponentDefF recur w st2 c _ _ with ⟨s2, r2⟩
        rw [h1, h2] at hcr
        obtain ⟨hr, hcache2⟩ := hcr
        dsimp only at hr hcache2
        subst hr
        cases r1 with
        | error e => exact ⟨rfl, hcache2⟩
        | ok d =>
          refine ⟨rfl, ?_⟩
          dsimp only
          rw [hcache2]
      | obj => exact ⟨rfl, hcc⟩
      | prim s => exact ⟨rfl, hcc⟩
    · simp only [if_neg hcond]
      exact ⟨by simp, hcc⟩

/-- Resolution outcomes and resulting caches coincide for any two states
sharing the same cache. -/
lemma getComponentDef_congr {w : World} : ∀ (fuel : Nat) (st1 st2 : St)
    (v : JSVal) (nm : Option String), st1.cache = st2.cache →
    (getComponentDef w fuel st1 v nm).2 = (getComponentDef w fuel st2 v nm).2 ∧
    (getComponentDef w fuel st1 v nm).1.cache =
      (getComponentDef w fuel st2 v nm).1.cache := by
  intro fuel
  induction fuel with
  | zero => intro st1 st2 v nm hcc; exact ⟨rfl, hcc⟩
  | succ fuel ih =>
    intro st1 st2 v nm hcc
    simp only [getComponentDef]
    exact getComponentDefStep_congr
      (fun s1 s2 v2 n2 hc2 => ih s1 s2 v2 n2 hc2) hcc v nm

/-- Claim C7: a failing resolution leaves the definition cache exactly as it
was — in particular no entry appears for the requested constructor — and a
subsequent identical call therefore re-runs the full resolution from scratch
and reaches the very same error. -/
theorem failed_resolution_leaves_cache_unchanged (w : World) (fuel : Nat)
    (st : St) (v : JSVal) (nm : Option String) (st' : St) (e : JSErr)
    (h : getComponentDef w fuel st v nm = (st', Except.error e)) :
    st'.cache = st.cache ∧ cacheGet st' v = cacheGet st v ∧
    (getComponentDef w fuel st' v nm).2 = Except.error e := by
  have h1 := getComponentDef_err_cache fuel st v nm st' e h
  refine ⟨h1, cacheGet_congr h1 v, ?_⟩
  have h2 := (getComponentDef_congr (w := w) fuel st' st v nm h1).1
  rw [h2, h]

theorem failed_resolution_leaves_cache_unchanged_witness :
    (({} : St)).cache = (({} : St)).cache ∧
    cacheGet {} (JSVal.ctor 7) = cacheGet {} (JSVal.ctor 7) ∧
    (getComponentDef wBad 4 {} (JSVal.ctor 7) none).2 =
      Except.error (JSErr.typeError
        "Orphan is not a valid component, or does not extends LightningElement from \"lwc\". You probably forgot to add the extend clause on the class declaration.") :=
  failed_resolution_leaves_cache_unchanged wBad 4 {} (JSVal.ctor 7) none {}
    (JSErr.typeError
      "Orphan is not a valid component, or does not extends LightningElement from \"lwc\". You probably forgot to add the extend clause on the class declaration.")
    rfl

/-- Claim C8: when a constructor prototype link is null before the recognized
base was reached, superclass resolution fails with the ReferenceError naming
the subclass being resolved and demanding that it extend LightningElement,
and `createComponentDef` propagates exactly that error to its caller (with
only the already-performed metadata lookup recorded, nothing recovered
internally). -/
theorem null_proto_invalid_ancestry_error (w : World) (c : Nat) (nm : String)
    (h : (w.ctors c).protoLink = none) :
    getCtorProto w c nm = Except.error (JSErr.refError
      ("Invalid prototype chain for " ++ nm ++ ", you must extend LightningElement.")) ∧
    ∀ (fuel : Nat) (st : St) (meta : ComponentMeta),
      createComponentDef w fuel st c meta nm =
        (bumpDeco st, Except.error (JSErr.refError
          ("Invalid prototype chain for " ++ nm ++ ", you must extend LightningElement."))) := by
  have h1 : getCtorProto w c nm = Except.error (JSErr.refError
      ("Invalid prototype chain for " ++ nm ++ ", you must extend LightningElement.")) := by
    unfold getCtorProto
    rw [h]
  refine ⟨h1, ?_⟩
  intro fuel st meta
  unfold createComponentDef createComponentDefF resolveSuperDefF
  dsimp only
  rw [h1]

theorem null_proto_invalid_ancestry_error_witness :
    getCtorProto wBad 7 "Orphan" = Except.error (JSErr.refError
      "Invalid prototype chain for Orphan, you must extend LightningElement.") ∧
    createComponentDef wBad 2 {} 7 { name := "Orphan" } "Orphan" =
      (bumpDeco {}, Except.error (JSErr.refError
        "Invalid prototype chain for Orphan, you must extend LightningElement.")) :=
  ⟨(null_proto_invalid_ancestry_error wBad 7 "Orphan" rfl).1,
   (null_proto_invalid_ancestry_error wBad 7 "Orphan" rfl).2 2 {} { name := "Orphan" }⟩

/-- A production-mode world (dev = false) whose constructor 4 extends the
base directly and declares one observed internal field "y". -/
def wProd : World :=
  { ctors := fun n =>
      match n with
      | 4 => { protoLink := some baseId, jsName := "WithObserved",
               fields := some ["y"] }
      | _ => { jsName := "LightningElement" }
    dev := false }

/-- Counterexample to claim C9 as stated: in a production build (dev = false),
building the definition of a class that declares an observed internal field
does mutate the class own prototype — the observed-field descriptors are
installed by defineProperties unconditionally (def.ts lines 129-131 carry no
production guard), so the mutation log is not empty. -/
theorem production_build_mutates_prototype :
    (createComponentDef wProd 1 {} 4 { name := "WithObserved" }
      "WithObserved").1.observedDefined ≠ ({} : St).observedDefined := by
  decide

lemma postState_frozen_prod {w : World} (hdev : w.dev = false) (c : Nat)
    (dm : DecoratorsMeta) (st : St) :
    (postState w c dm st).frozenProtos = st.frozenProtos := by
  unfold postState
  dsimp only
  rw [if_neg (by simp [hdev])]
  split <;> rfl

/-- In production no prototype is ever frozen (superclass resolution layer),
given that for the recursive call. -/
lemma resolveSuperDefF_frozen
    {recur : St → JSVal → Option String → St × Except JSErr ComponentDef}
    (hrec : ∀ st v nm, (recur st v nm).1.frozenProtos = st.frozenProtos)
    {w : World} (st : St) (c : Nat) (nm : String) :
    (resolveSuperDefF recur w st c nm).1.frozenProtos = st.frozenProtos := by
  unfold resolveSuperDefF
  cases hgp : getCtorProto w c nm with
  | error e => rfl
  | ok sp =>
    by_cases hb : sp ≠ some baseId
    · simp only [if_pos hb]
      exact hrec st (jsOfRef sp) (some nm)
    · simp only [if_neg hb]
      try rfl

/-- In production no prototype is ever frozen (definition build layer), given
that for the recursive call. -/
lemma createComponentDefF_frozen
    {recur : St → JSVal → Option String → St × Except JSErr ComponentDef}
    (hrec : ∀ st v nm, (recur st v nm).1.frozenProtos = st.frozenProtos)
    {w : World} (hdev : w.dev = false) (st : St) (c : Nat)
    (meta : ComponentMeta) (nm : String) :
    (createComponentDefF recur w st c meta nm).1.frozenProtos = st.frozenProtos := by
  unfold createComponentDefF
  dsimp only
  have hres := resolveSuperDefF_frozen hrec (w := w) (bumpDeco st) c nm
  rcases hr : resolveSuperDefF recur w (bumpDeco st) c nm with ⟨s2, r⟩
  rw [hr] at hres
  cases r with
  | error e => exact hres
  | ok sd =>
    dsimp only
    rw [postState_frozen_prod hdev]
    exact hres

/-- In production no prototype is ever frozen (`getComponentDef` step layer),
given that for the recursive call. -/
lemma getComponentDefStep_frozen
    {recur : St → JSVal → Option String → St × Except JSErr ComponentDef}
    (hrec : ∀ st v nm, (recur st v nm).1.frozenProtos = st.frozenProtos)
    {w : World} {ccFuel : Nat} (hdev : w.dev = false) (st : St) (v : JSVal)
    (nm : Option String) :
    (getComponentDefStep recur w ccFuel st v nm).1.frozenProtos = st.frozenProtos := by
  unfold getComponentDefStep
  cases hm : cacheGet st v with
  | some d => rfl
  | none =>
    by_cases hcond : isComponentConstructor w ccFuel v = true
    · simp only [if_pos hcond]
      cases v with
      | ctor c =>
        cases hmr : getComponentRegisteredMeta w c with
        | some m =>
          simp only [hmr]
          try dsimp only
          have hcr := createComponentDefF_frozen hrec (w := w) hdev st c m
            (strOr nm (w.ctors c).jsName)
          rcases h1 : createComponentDefF recur w st c m
            (strOr nm (w.ctors c).jsName) with ⟨s2, r⟩
          rw [h1] at hcr
          cases r with
          | ok d => exact hcr
          | error e => exact hcr
        | none =>
          simp only [hmr]
          try dsimp only
          have hcr := createComponentDefF_frozen hrec (w := w) hdev st c
            { template := none, name := (w.ctors c).jsName }
            (strOr nm (w.ctors c).jsName)
          rcases h1 : createComponentDefF recur w st c
            { template := none, name := (w.ctors c).jsName }
            (strOr nm (w.ctors c).jsName) with ⟨s2, r⟩
          rw [h1] at hcr
          cases r with
          | ok d => exact hcr
          | error e => exact hcr
      | obj => rfl
      | prim s => rfl
    · simp only [if_neg hcond]
      try rfl

/-- In a production world, no run of `getComponentDef` ever freezes a
prototype. -/
lemma getComponentDef_frozen_prod {w : World} (hdev : w.dev = false) :
    ∀ (fuel : Nat) (st : St) (v : JSVal) (nm : Option String),
      (getComponentDef w fuel st v nm).1.frozenProtos = st.frozenProtos := by
  intro fuel
  induction fuel with
  | zero => intro st v nm; rfl
  | succ fuel ih =>
    intro st v nm
    rw [getComponentDef]
    exact getComponentDefStep_frozen (fun st2 v2 nm2 => ih st2 v2 nm2) hdev st v nm

/-- Claim C9 amended: building a definition performs exactly these mutations
of the class own prototype — the observed-field descriptor installation
happens whenever the class declares observed fields, in development and in
production alike, and the prototype freeze happens exactly in development
mode; consequently in production builds no prototype is ever frozen (but a
class with observed fields is still mutated, which is the part the original
claim got wrong). -/
theorem prototype_mutation_amended :
    (∀ (w : World) (c : Nat) (dm : DecoratorsMeta) (st : St),
      (postState w c dm st).frozenProtos =
        (if w.dev then c :: st.frozenProtos else st.frozenProtos) ∧
      (postState w c dm st).observedDefined =
        (match dm.fields with
         | some _ => c :: st.observedDefined
         | none => st.observedDefined)) ∧
    (∀ w : World, w.dev = false → ∀ (fuel : Nat) (st : St) (v : JSVal)
      (nm : Option String),
      (getComponentDef w fuel st v nm).1.frozenProtos = st.frozenProtos) := by
  constructor
  · intro w c dm st
    constructor
    · cases hdm : dm.fields <;> cases hdev : w.dev <;>
        simp [postState, hdm, hdev]
    · cases hdm : dm.fields <;> cases hdev : w.dev <;>
        simp [postState, hdm, hdev]
  · intro w hdev fuel st v nm
    exact getComponentDef_frozen_prod hdev fuel st v nm

theorem prototype_mutation_amended_witness :
    (postState wProd 4 (getDecoratorsMeta wProd 4) {}).frozenProtos =
      (if wProd.dev then 4 :: ({} : St).frozenProtos else ({} : St).frozenProtos) ∧
    (postState wProd 4 (getDecoratorsMeta wProd 4) {}).observedDefined =
      (match (getDecoratorsMeta wProd 4).fields with
       | some _ => 4 :: ({} : St).observedDefined
       | none => ({} : St).observedDefined) ∧
    (getComponentDef wProd 2 {} (JSVal.ctor 4) none).1.frozenProtos =
      ({} : St).frozenProtos :=
  ⟨(prototype_mutation_amended.1 wProd 4 (getDecoratorsMeta wProd 4) {}).1,
   (prototype_mutation_amended.1 wProd 4 (getDecoratorsMeta wProd 4) {}).2,
   prototype_mutation_amended.2 wProd rfl 2 {} (JSVal.ctor 4) none⟩

/-- A successful prototype resolution is independent of the display name
argument (the name only appears in error messages). -/
lemma getCtorProto_ok_name {w : World} {c : Nat} {n1 n2 : String}
    {sp : Option Nat} (h : getCtorProto w c n1 = Except.ok sp) :
    getCtorProto w c n2 = Except.ok sp := by
  unfold getCtorProto at h ⊢
  cases hpl : (w.ctors c).protoLink with
  | none => rw [hpl] at h; simp at h
  | some proto =>
    rw [hpl] at h
    dsimp only at h ⊢
    by_cases hc : isCircularModuleDependency w proto = true
    · rw [if_pos hc] at h ⊢
      cases hres : resolveCircularModuleDependency w proto with
      | none =>
        rw [hres] at h
        dsimp only at h ⊢
        by_cases hdev : w.dev = true
        · rw [if_pos hdev] at h
          simp at h
        · rw [if_neg hdev] at h ⊢
          exact h
      | some p =>
        rw [hres] at h
        dsimp only at h ⊢
        exact h
    · rw [if_neg hc] at h ⊢
      exact h

/-- A successful superclass-definition resolution is independent of the
display name argument, given that for the recursive call. -/
lemma resolveSuperDefF_name
    {recur : St → JSVal → Option String → St × Except JSErr ComponentDef}
    (hrec : ∀ st v nm1 nm2 st' d, recur st v nm1 = (st', Except.ok d) →
      recur st v nm2 = (st', Except.ok d))
    {w : World} {st : St} {c : Nat} {n1 n2 : String} {st' : St}
    {sd : ComponentDef}
    (h : resolveSuperDefF recur w st c n1 = (st', Except.ok sd)) :
    resolveSuperDefF recur w st c n2 = (st', Except.ok sd) := by
  unfold resolveSuperDefF at h ⊢
  cases hgp : getCtorProto w c n1 with
  | error e => rw [hgp] at h; simp at h
  | ok sp =>
    rw [hgp] at h
    dsimp only at h
    rw [getCtorProto_ok_name hgp]
    dsimp only
    by_cases hb : sp ≠ some baseId
    · rw [if_pos hb] at h ⊢
      exact hrec st (jsOfRef sp) (some n1) (some n2) st' sd h
    · rw [if_neg hb] at h ⊢
      exact h

/-- A successful definition build is independent of the display name
argument, given that for the recursive call. -/
lemma createComponentDefF_name
    {recur : St → JSVal → Option String → St × Except JSErr ComponentDef}
    (hrec : ∀ st v nm1 nm2 st' d, recur st v nm1 = (st', Except.ok d) →
      recur st v nm2 = (st', Except.ok d))
    {w : World} {st : St} {c : Nat} {meta : ComponentMeta} {n1 n2 : String}
    {st' : St} {d : ComponentDef}
    (h : createComponentDefF recur w st c meta n1 = (st', Except.ok d)) :
    createComponentDefF recur w st c meta n2 = (st', Except.ok d) := by
  unfold createComponentDefF at h ⊢
  dsimp only at h ⊢
  rcases hr : resolveSuperDefF recur w (bumpDeco st) c n1 with ⟨s2, r⟩
  rw [hr] at h
  cases r with
  | error e => simp at h
  | ok sd =>
    rw [resolveSuperDefF_name hrec hr]
    exact h

/-- A successful `getComponentDef` step is independent of the display name
argument, given that for the recursive call. -/
lemma getComponentDefStep_name
    {recur : St → JSVal → Option String → St × Except JSErr ComponentDef}
    (hrec : ∀ st v nm1 nm2 st' d, recur st v nm1 = (st', Except.ok d) →
      recur st v nm2 = (st', Except.ok d))
    {w : World} {ccFuel : Nat} {st : St} {v : JSVal} {n1 n2 : Option String}
    {st' : St} {d : ComponentDef}
    (h : getComponentDefStep recur w ccFuel st v n1 = (st', Except.ok d)) :
    getComponentDefStep recur w ccFuel st v n2 = (st', Except.ok d) := by
  unfold getComponentDefStep at h ⊢
  cases hm : cacheGet st v with
  | some d0 => rw [hm] at h; dsimp only at h ⊢; exact h
  | none =>
    rw [hm] at h
    dsimp only at h ⊢
    by_cases hcond : isComponentConstructor w ccFuel v = true
    · rw [if_pos hcond] at h ⊢
      cases v with
      | ctor c =>
        dsimp only at h ⊢
        cases hmr : getComponentRegisteredMeta w c with
        | some m =>
          rw [hmr] at h
          dsimp only at h ⊢
          rcases hcr : createComponentDefF recur w st c m
            (strOr n1 (w.ctors c).jsName) with ⟨s2, r⟩
          rw [hcr] at h
          cases r with
          | ok d1 =>
            rw [createComponentDefF_name hrec hcr]
            exact h
          | error e => simp at h
        | none =>
          rw [hmr] at h
          dsimp only at h ⊢
          rcases hcr : createComponentDefF recur w st c
            { template := none, name := (w.ctors c).jsName }
            (strOr n1 (w.ctors c).jsName) with ⟨s2, r⟩
          rw [hcr] at h
          cases r with
          | ok d1 =>
            rw [createComponentDefF_name hrec hcr]
            exact h
          | error e => simp at h
      | obj => simp at h
      | prim s => simp at h
    · rw [if_neg hcond] at h
      simp at h

/-- A successful resolution is independent of the display name argument:
outcome and final state coincide for any two names. -/
lemma getComponentDef_name {w : World} : ∀ (fuel : Nat) (st : St) (v : JSVal)
    (n1 n2 : Option String) (st' : St) (d : ComponentDef),
    getComponentDef w fuel st v n1 = (st', Except.ok d) →
    getComponentDef w fuel st v n2 = (st', Except.ok d) := by
  intro fuel
  induction fuel with
  | zero => intro st v n1 n2 st' d h; simp [getComponentDef] at h
  | succ fuel ih =>
    intro st v n1 n2 st' d h
    rw [getComponentDef] at h ⊢
    exact getComponentDefStep_name
      (fun st2 v2 m1 m2 st2' d2 h2 => ih st2 v2 m1 m2 st2' d2 h2) h

/-- Claim C10: the resolved ComponentDef depends only on the constructor
identity, never on the optional subclass display-name argument — a
successful call with one name yields the identical result and state with any
other name, and after that first call every later call with any name returns
the same cached definition with the state untouched (the name argument only
influences error messages of failing resolutions). -/
theorem name_argument_independence (w : World) (fuel : Nat) (st : St)
    (v : JSVal) (n1 n2 : Option String) (st' : St) (d : ComponentDef)
    (h : getComponentDef w fuel st v n1 = (st', Except.ok d)) :
    getComponentDef w fuel st v n2 = (st', Except.ok d) ∧
    ∀ fuel2, getComponentDef w (fuel2 + 1) st' v n2 = (st', Except.ok d) := by
  refine ⟨getComponentDef_name fuel st v n1 n2 st' d h, ?_⟩
  intro fuel2
  have hc := getComponentDef_ok_cached h
  rw [getComponentDef]
  unfold getComponentDefStep
  rw [hc]

theorem name_argument_independence_witness :
    getComponentDef wChain 3 {} (JSVal.ctor 1) (some "N2") = (stA, Except.ok defA) ∧
    getComponentDef wChain 5 stA (JSVal.ctor 1) (some "N2") = (stA, Except.ok defA) :=
  ⟨(name_argument_independence wChain 3 {} (JSVal.ctor 1) (some "N1") (some "N2")
      stA defA rfl).1,
   (name_argument_independence wChain 3 {} (JSVal.ctor 1) (some "N1") (some "N2")
      stA defA rfl).2 4⟩
